import Mathlib

/-!
Verification of the `SimpleSessionStore` class of `src/session_store.py`
(repository chat-memory): a file-per-session JSON persistence layer for chat
conversations.

Embedding conventions:
* The storage directory is modelled as an association list `Storage` from the
  session identifier (the file name without its `.json` extension) to the
  persisted unit.  A unit is either a deserializable record (`FileContent.valid`)
  or an unparseable file (`FileContent.corrupt`, the `json.JSONDecodeError` case).
  JSON serialization of a record is faithful for the record shapes the store
  writes, so `_save_session` stores the record itself.
* Timestamps (`datetime.now().isoformat()`) are modelled as integers counting
  seconds; `timedelta(days = d)` is `d * secondsPerDay`.  Both comparisons the
  code performs on timestamps (lexicographic comparison of ISO strings in
  `list_sessions`, `datetime` comparison in `cleanup_old_sessions`) agree with
  the numeric order of the instants, so the integer model preserves them.
  Each operation takes the current clock reading `now` as an argument.
* `uuid.uuid4()` is modelled by passing the generated identifier as an argument.
* File-system outcomes are modelled explicitly.  A delete (`os.remove`) either
  completes or raises, a boolean `ok` argument.  A save opens the unit with
  mode `w` — truncating it — and then runs `json.dump` into it, so it has three
  outcomes (`WriteOutcome`): the write completes; `open` itself raises before
  truncating, leaving the unit unchanged; or the dump raises after the
  truncation, leaving a truncated, unparseable unit.  `WriteOutcome.ok` is the
  normal-operation case.
* Python `str.strip()` and `str.lower()` are modelled by `pyStrip` and
  `pyLower` over the character list (ASCII whitespace and ASCII case, the
  relevant fragment for role/content normalization).
* Message and session metadata dictionaries are modelled as association lists
  of string pairs; the store never inspects them, so their value type is
  irrelevant to every verified property.
-/

/-- Model of Python `str.strip()`: remove leading and trailing whitespace. -/
def pyStrip (s : String) : String :=
  ⟨((s.data.dropWhile Char.isWhitespace).reverse.dropWhile Char.isWhitespace).reverse⟩

/-- Model of Python `str.lower()`: lowercase every character. -/
def pyLower (s : String) : String :=
  ⟨s.data.map Char.toLower⟩

namespace SimpleSessionStore

/-- One message of a session, as built by `add_message` (`session_store.py`,
lines 89-95). -/
structure Message where
  id : Nat
  role : String
  content : String
  timestamp : Int
  metadata : List (String × String)
deriving DecidableEq

/-- A persisted session record, as built by `create_session` (`session_store.py`,
lines 51-59). -/
structure SessionData where
  session_id : String
  user_id : Option String
  created_at : Int
  last_updated : Int
  message_count : Nat
  metadata : List (String × String)
  messages : List Message
deriving DecidableEq

/-- Content of one persisted `<session_id>.json` file: either a record that
`json.load` deserializes, or an unparseable file. -/
inductive FileContent where
  | valid (d : SessionData)
  | corrupt
deriving DecidableEq

/-- The storage directory: session identifier to file content, one entry per
existing file. -/
abbrev Storage := List (String × FileContent)

/-- Look up the file named by a session identifier (`os.path.exists` plus read). -/
def lookupFile : Storage → String → Option FileContent
  | [], _ => none
  | e :: st, sid => if e.1 = sid then some e.2 else lookupFile st sid

/-- Delete the file named by a session identifier (`os.remove`). -/
def removeFile : Storage → String → Storage
  | [], _ => []
  | e :: st, sid => if e.1 = sid then removeFile st sid else e :: removeFile st sid

/-- Create or overwrite the file named by a session identifier
(`open(session_file, "w")` plus `json.dump`). -/
def setFile (st : Storage) (sid : String) (fc : FileContent) : Storage :=
  removeFile st sid ++ [(sid, fc)]

/-- `timedelta(days = 1)` on the integer clock. -/
def secondsPerDay : Int := 86400

/-- Outcome of one attempted save (`open(session_file, "w")` then
`json.dump`): the write completes; `open` raises before the unit is touched;
or `json.dump` raises after `open` has already truncated the unit. -/
inductive WriteOutcome where
  | ok
  | failBeforeOpen
  | failDuringDump
deriving DecidableEq

/-- `_save_session` (lines 227-234): opens the unit with mode `w` (truncating
it) and dumps the record into it; any exception is caught and logged, so the
method returns normally either way and reports nothing to its caller.  When
`open` itself raises the unit is unchanged; when the dump raises after the
truncation the unit is left unparseable. -/
def _save_session (w : WriteOutcome) (st : Storage) (session_id : String)
    (session_data : SessionData) : Storage :=
  match w with
  | WriteOutcome.ok => setFile st session_id (FileContent.valid session_data)
  | WriteOutcome.failBeforeOpen => st
  | WriteOutcome.failDuringDump => setFile st session_id FileContent.corrupt

/-- `create_session` (lines 39-64): builds a fresh record with empty message
list and persists it; returns the generated identifier. -/
def create_session (w : WriteOutcome) (now : Int) (st : Storage) (session_id : String)
    (user_id : Option String) (metadata : List (String × String)) :
    String × Storage :=
  let session_data : SessionData :=
    { session_id := session_id
      user_id := user_id
      created_at := now
      last_updated := now
      message_count := 0
      metadata := metadata
      messages := [] }
  (session_id, _save_session w st session_id session_data)

/-- `get_session` (lines 106-125): `None` when the file does not exist, the
deserialized record when it parses, and `None` (logged) when it is corrupt. -/
def get_session (st : Storage) (session_id : String) : Option SessionData :=
  match lookupFile st session_id with
  | none => none
  | some (FileContent.valid d) => some d
  | some FileContent.corrupt => none

/-- `add_message` (lines 66-104): rejects content that is empty after stripping,
rejects an unknown session, otherwise appends a message with
`id = len(messages) + 1`, normalized role, stripped content, updates
`message_count` and `last_updated`, and saves. -/
def add_message (w : WriteOutcome) (now : Int) (st : Storage)
    (session_id role content : String) (metadata : List (String × String)) :
    Bool × Storage :=
  if pyStrip content = "" then (false, st)
  else
    match get_session st session_id with
    | none => (false, st)
    | some session_data =>
      let message : Message :=
        { id := session_data.messages.length + 1
          role := pyLower (pyStrip role)
          content := pyStrip content
          timestamp := now
          metadata := metadata }
      let messages2 := session_data.messages ++ [message]
      let session_data2 : SessionData :=
        { session_data with
          messages := messages2
          message_count := messages2.length
          last_updated := now }
      (true, _save_session w st session_id session_data2)

/-- `get_session_messages` (lines 127-140): the messages of the session, or the
empty list when the session does not resolve. -/
def get_session_messages (st : Storage) (session_id : String) : List Message :=
  match get_session st session_id with
  | some d => d.messages
  | none => []

/-- The summary built by `list_sessions` (lines 162-168): exactly the fields
`session_id`, `user_id`, `created_at`, `last_updated`, `message_count`. -/
structure SessionSummary where
  session_id : String
  user_id : Option String
  created_at : Int
  last_updated : Int
  message_count : Nat
deriving DecidableEq

/-- Projection of a record to its listing summary (lines 162-168). -/
def summarize (d : SessionData) : SessionSummary :=
  { session_id := d.session_id
    user_id := d.user_id
    created_at := d.created_at
    last_updated := d.last_updated
    message_count := d.message_count }

/-- The sort order of `list_sessions` (line 172): most recently updated first.
`moreRecent a b` says `a` may precede `b`. -/
def moreRecent (a b : SessionSummary) : Prop :=
  b.last_updated ≤ a.last_updated

instance : DecidableRel moreRecent := fun a b =>
  inferInstanceAs (Decidable (b.last_updated ≤ a.last_updated))

instance : IsTotal SessionSummary moreRecent :=
  ⟨fun a b => le_total b.last_updated a.last_updated⟩

instance : IsTrans SessionSummary moreRecent :=
  ⟨fun _ _ _ h1 h2 => le_trans h2 h1⟩

/-- The collection loop of `list_sessions` (lines 152-169): every `.json` file
that deserializes and passes the user filter, summarized, in directory order. -/
def matchingSummaries (st : Storage) (user_id : Option String) :
    List SessionSummary :=
  st.filterMap fun e =>
    match e.2 with
    | FileContent.valid d =>
        if user_id = none ∨ d.user_id = user_id then some (summarize d) else none
    | FileContent.corrupt => none

/-- `list_sessions` (lines 142-173): collect matching summaries, then a stable
sort by `last_updated`, most recent first (`sort(key = ..., reverse = True)`). -/
def list_sessions (st : Storage) (user_id : Option String) :
    List SessionSummary :=
  List.insertionSort moreRecent (matchingSummaries st user_id)

/-- `delete_session` (lines 175-196): removes the file when it exists (returning
`False` if `os.remove` raises), `False` when it does not exist. -/
def delete_session (ok : Bool) (st : Storage) (session_id : String) :
    Bool × Storage :=
  match lookupFile st session_id with
  | some _ => if ok then (true, removeFile st session_id) else (false, st)
  | none => (false, st)

/-- Loop body of `cleanup_old_sessions` (lines 213-222): load the session, and
when its `created_at` is older than the cutoff delete it, counting successful
deletions. -/
def cleanup_step (ok : Bool) (cutoff : Int) (acc : Nat × Storage) (sid : String) :
    Nat × Storage :=
  match get_session acc.2 sid with
  | none => acc
  | some d =>
    if d.created_at < cutoff then
      let r := delete_session ok acc.2 sid
      (if r.1 then acc.1 + 1 else acc.1, r.2)
    else acc

/-- `cleanup_old_sessions` (lines 198-225): iterate over the directory listing
taken at entry, deleting every record created before `now - days_old` days;
returns the number removed. -/
def cleanup_old_sessions (ok : Bool) (now : Int) (st : Storage)
    (days_old : Int) : Nat × Storage :=
  (st.map Prod.fst).foldl (cleanup_step ok (now - days_old * secondsPerDay)) (0, st)

/-- The mapping returned by `get_stats` (lines 241-246). -/
structure Stats where
  total_sessions : Nat
  total_messages : Nat
  storage_directory : String
  average_messages_per_session : Rat
deriving DecidableEq

/-- `get_stats` (lines 236-246): derived from `list_sessions(None)`; the average
is a true division guarded by the emptiness test (`... if sessions else 0`), so
no division by zero is ever performed. -/
def get_stats (storage_dir : String) (st : Storage) : Stats :=
  let sessions := list_sessions st none
  let total_messages := (sessions.map SessionSummary.message_count).sum
  { total_sessions := sessions.length
    total_messages := total_messages
    storage_directory := storage_dir
    average_messages_per_session :=
      if sessions = [] then 0
      else (total_messages : Rat) / (sessions.length : Rat) }

/-- The records (deserializable units) currently stored, in directory order. -/
def storedRecords (st : Storage) : List SessionData :=
  st.filterMap fun e =>
    match e.2 with
    | FileContent.valid d => some d
    | FileContent.corrupt => none

/-- Record-level invariant of the data model: `message_count` equals the length
of `messages`, and the message ids are `1, 2, ..., n` in insertion order. -/
def GoodRecord (d : SessionData) : Prop :=
  d.message_count = d.messages.length ∧
  d.messages.map Message.id = List.range' 1 d.messages.length

instance : DecidablePred GoodRecord := fun d =>
  inferInstanceAs (Decidable (_ ∧ _))

/-- Invariant lifted to one persisted unit (vacuous for a corrupt file). -/
def FileGood : FileContent → Prop
  | FileContent.valid d => GoodRecord d
  | FileContent.corrupt => True

instance : DecidablePred FileGood := fun fc =>
  match fc with
  | FileContent.valid d => inferInstanceAs (Decidable (GoodRecord d))
  | FileContent.corrupt => inferInstanceAs (Decidable True)

/-- Invariant of the whole storage namespace: every stored record is good. -/
def StoreInv (st : Storage) : Prop :=
  ∀ e ∈ st, FileGood e.2

instance (st : Storage) : Decidable (StoreInv st) :=
  inferInstanceAs (Decidable (∀ e ∈ st, FileGood e.2))

/-- Age test of the cleanup loop on one unit (line 219-220): a deserializable
record whose `created_at` is before the cutoff; a corrupt unit is skipped. -/
def isOld (cutoff : Int) : String × FileContent → Bool
  | (_, FileContent.valid d) => decide (d.created_at < cutoff)
  | (_, FileContent.corrupt) => false

/-- Appending a batch of `(role, content)` pairs through `add_message`, all with
the same store and successful writes (the round-trip scenario of the spec). -/
def add_messages (now : Int) (sid : String) (pairs : List (String × String))
    (st : Storage) : Storage :=
  pairs.foldl (fun s q => (add_message WriteOutcome.ok now s sid q.1 q.2 []).2) st

/-- Concrete record fixture: a fresh session of user `u1`. -/
def recA : SessionData :=
  { session_id := "s1"
    user_id := some "u1"
    created_at := 3
    last_updated := 3
    message_count := 0
    metadata := [("topic", "x")]
    messages := [] }

/-- Concrete record fixture: a fresh session of user `u2`. -/
def recB : SessionData :=
  { session_id := "s2"
    user_id := some "u2"
    created_at := 4
    last_updated := 4
    message_count := 0
    metadata := []
    messages := [] }

/-- Concrete storage fixture holding the two records. -/
def stAB : Storage := [("s1", FileContent.valid recA), ("s2", FileContent.valid recB)]

theorem lookupFile_none_iff (st : Storage) (sid : String) :
    lookupFile st sid = none ↔ sid ∉ st.map Prod.fst := by
  induction st with
  | nil => simp [lookupFile]
  | cons e st ih =>
      by_cases h : e.1 = sid
      · simp [lookupFile, h]
      · simp only [lookupFile, if_neg h, List.map_cons, List.mem_cons, ih]
        constructor
        · rintro hn (h1 | h2)
          · exact h h1.symm
          · exact hn h2
        · intro hn h2
          exact hn (Or.inr h2)

theorem lookupFile_append_left_none {st1 : Storage} (st2 : Storage) {sid : String}
    (h : lookupFile st1 sid = none) :
    lookupFile (st1 ++ st2) sid = lookupFile st2 sid := by
  induction st1 with
  | nil => simp
  | cons e st ih =>
      by_cases he : e.1 = sid
      · rw [lookupFile, if_pos he] at h
        exact absurd h (by simp)
      · rw [lookupFile, if_neg he] at h
        rw [List.cons_append, lookupFile, if_neg he]
        exact ih h

theorem lookupFile_removeFile_self (st : Storage) (sid : String) :
    lookupFile (removeFile st sid) sid = none := by
  induction st with
  | nil => rfl
  | cons e st ih =>
      by_cases he : e.1 = sid
      · rw [removeFile, if_pos he]
        exact ih
      · rw [removeFile, if_neg he, lookupFile, if_neg he]
        exact ih

theorem removeFile_of_not_mem {st : Storage} {sid : String}
    (h : sid ∉ st.map Prod.fst) : removeFile st sid = st := by
  induction st with
  | nil => rfl
  | cons e st ih =>
      simp only [List.map_cons, List.mem_cons] at h
      push_neg at h
      rw [removeFile, if_neg (fun he => h.1 he.symm), ih h.2]

theorem removeFile_append (st1 st2 : Storage) (sid : String) :
    removeFile (st1 ++ st2) sid = removeFile st1 sid ++ removeFile st2 sid := by
  induction st1 with
  | nil => rfl
  | cons e st ih =>
      by_cases he : e.1 = sid <;> simp [removeFile, he, ih]

theorem lookupFile_setFile_self (st : Storage) (sid : String) (fc : FileContent) :
    lookupFile (setFile st sid fc) sid = some fc := by
  rw [setFile, lookupFile_append_left_none _ (lookupFile_removeFile_self st sid),
    lookupFile, if_pos rfl]

theorem get_session_setFile_valid (st : Storage) (sid : String) (d : SessionData) :
    get_session (setFile st sid (FileContent.valid d)) sid = some d := by
  unfold get_session
  rw [lookupFile_setFile_self]

theorem mem_removeFile {st : Storage} {sid : String} {e : String × FileContent}
    (h : e ∈ removeFile st sid) : e ∈ st := by
  induction st with
  | nil => simpa [removeFile] using h
  | cons a st ih =>
      by_cases ha : a.1 = sid
      · rw [removeFile, if_pos ha] at h
        exact List.mem_cons_of_mem a (ih h)
      · rw [removeFile, if_neg ha] at h
        rcases List.mem_cons.mp h with h1 | h2
        · exact h1 ▸ List.mem_cons_self a st
        · exact List.mem_cons_of_mem a (ih h2)

theorem mem_setFile {st : Storage} {sid : String} {fc : FileContent}
    {e : String × FileContent} (h : e ∈ setFile st sid fc) :
    e ∈ st ∨ e = (sid, fc) := by
  rw [setFile] at h
  rcases List.mem_append.mp h with h1 | h2
  · exact Or.inl (mem_removeFile h1)
  · exact Or.inr (by simpa using h2)

theorem lookupFile_mem {st : Storage} {sid : String} {fc : FileContent}
    (h : lookupFile st sid = some fc) : (sid, fc) ∈ st := by
  induction st with
  | nil => simp [lookupFile] at h
  | cons e st ih =>
      by_cases he : e.1 = sid
      · rw [lookupFile, if_pos he] at h
        have he2 : e = (sid, fc) := by
          cases e
          cases he
          cases Option.some.inj h
          rfl
        exact he2 ▸ List.mem_cons_self e st
      · rw [lookupFile, if_neg he] at h
        exact List.mem_cons_of_mem e (ih h)

theorem get_session_eq_some {st : Storage} {sid : String} {d : SessionData}
    (h : get_session st sid = some d) :
    lookupFile st sid = some (FileContent.valid d) := by
  unfold get_session at h
  match hl : lookupFile st sid with
  | none => rw [hl] at h; exact absurd h (by simp)
  | some (FileContent.valid d2) => rw [hl] at h; cases Option.some.inj h; rfl
  | some FileContent.corrupt => rw [hl] at h; exact absurd h (by simp)

theorem add_message_success_eq (w : WriteOutcome) (now : Int) (st : Storage)
    (sid role content : String) (md : List (String × String)) (d : SessionData)
    (hfound : get_session st sid = some d) (hc : pyStrip content ≠ "") :
    add_message w now st sid role content md =
      (true, _save_session w st sid
        { d with
          messages := d.messages ++
            [{ id := d.messages.length + 1
               role := pyLower (pyStrip role)
               content := pyStrip content
               timestamp := now
               metadata := md }]
          message_count := d.messages.length + 1
          last_updated := now }) := by
  unfold add_message
  rw [if_neg hc, hfound]
  simp

/-- Claim C1: for an existing session and content that is non-empty after
stripping whitespace, `add_message` succeeds and appends exactly one message
whose id is the previous message count plus one, with the role stripped and
lowercased and the content stripped, increments `message_count` by one, sets
`last_updated` to the current time, and leaves `session_id`, `user_id`,
`created_at` and the session-level metadata of the record unchanged.  The
hypothesis `hinv` is the stored-record invariant `message_count = len(messages)`
that every record written by the store satisfies. -/
theorem add_message_appends_message (now : Int) (st : Storage)
    (sid role content : String) (md : List (String × String)) (d : SessionData)
    (hfound : get_session st sid = some d) (hc : pyStrip content ≠ "")
    (hinv : d.message_count = d.messages.length) :
    (add_message WriteOutcome.ok now st sid role content md).1 = true ∧
    ∃ d2, get_session (add_message WriteOutcome.ok now st sid role content md).2 sid = some d2 ∧
      d2.messages = d.messages ++
        [{ id := d.message_count + 1
           role := pyLower (pyStrip role)
           content := pyStrip content
           timestamp := now
           metadata := md }] ∧
      d2.message_count = d.message_count + 1 ∧
      d2.last_updated = now ∧
      d2.session_id = d.session_id ∧
      d2.user_id = d.user_id ∧
      d2.created_at = d.created_at ∧
      d2.metadata = d.metadata := by
  rw [add_message_success_eq WriteOutcome.ok now st sid role content md d hfound hc]
  refine ⟨rfl, _, get_session_setFile_valid st sid _, ?_, ?_, ?_, ?_, ?_, ?_, ?_⟩ <;>
    simp [hinv]

/-- Closing the hypotheses of the claim C1 theorem on a concrete session. -/
theorem add_message_appends_message_witness :
    (add_message WriteOutcome.ok 5 stAB "s1" "USER " " hi " []).1 = true ∧
    ∃ d2, get_session (add_message WriteOutcome.ok 5 stAB "s1" "USER " " hi " []).2 "s1" = some d2 ∧
      d2.messages = recA.messages ++
        [{ id := recA.message_count + 1
           role := pyLower (pyStrip "USER ")
           content := pyStrip " hi "
           timestamp := 5
           metadata := [] }] ∧
      d2.message_count = recA.message_count + 1 ∧
      d2.last_updated = 5 ∧
      d2.session_id = recA.session_id ∧
      d2.user_id = recA.user_id ∧
      d2.created_at = recA.created_at ∧
      d2.metadata = recA.metadata :=
  add_message_appends_message 5 stAB "s1" "USER " " hi " [] recA (by decide) (by decide)
    (by decide)

/-- Claim C2: `add_message` returns failure exactly when the stripped content is
empty or the session identifier does not resolve to an existing record, and in
either failure case the storage is completely unchanged (no record created,
none modified).  This holds for every outcome of the underlying write. -/
theorem add_message_failure_spec (w : WriteOutcome) (now : Int) (st : Storage)
    (sid role content : String) (md : List (String × String)) :
    ((add_message w now st sid role content md).1 = false ↔
      (pyStrip content = "" ∨ get_session st sid = none)) ∧
    ((pyStrip content = "" ∨ get_session st sid = none) →
      (add_message w now st sid role content md).2 = st) := by
  unfold add_message
  by_cases hc : pyStrip content = ""
  · simp [hc]
  · rw [if_neg hc]
    cases hg : get_session st sid with
    | none => simp [hc, hg]
    | some d => simp [hc, hg]

/-- Closing the claim C2 theorem on a concrete whitespace-only content. -/
theorem add_message_failure_spec_witness :
    (add_message WriteOutcome.ok 5 stAB "s1" "user" "   " []).1 = false ∧
    (add_message WriteOutcome.ok 5 stAB "s1" "user" "   " []).2 = stAB :=
  ⟨((add_message_failure_spec WriteOutcome.ok 5 stAB "s1" "user" "   " []).1).mpr
      (Or.inl (by decide)),
   (add_message_failure_spec WriteOutcome.ok 5 stAB "s1" "user" "   " []).2
      (Or.inl (by decide))⟩

/-- Claim C10: `add_message` performs no validation of the role: for an existing
session and content that is non-empty after stripping, it succeeds for every
role string, and the stored role is the input role stripped and lowercased — in
particular an empty or all-whitespace role is accepted and stored as the empty
string. -/
theorem add_message_ignores_role_validation (now : Int) (st : Storage)
    (sid role content : String) (md : List (String × String)) (d : SessionData)
    (hfound : get_session st sid = some d) (hc : pyStrip content ≠ "") :
    (add_message WriteOutcome.ok now st sid role content md).1 = true ∧
    ∃ d2, get_session (add_message WriteOutcome.ok now st sid role content md).2 sid = some d2 ∧
      d2.messages = d.messages ++
        [{ id := d.messages.length + 1
           role := pyLower (pyStrip role)
           content := pyStrip content
           timestamp := now
           metadata := md }] := by
  rw [add_message_success_eq WriteOutcome.ok now st sid role content md d hfound hc]
  exact ⟨rfl, _, get_session_setFile_valid st sid _, rfl⟩

/-- Closing the claim C10 theorem with an all-whitespace role, which is stored
as the empty string. -/
theorem add_message_ignores_role_validation_witness :
    ((add_message WriteOutcome.ok 5 stAB "s1" "   " "hello" []).1 = true ∧
     ∃ d2, get_session (add_message WriteOutcome.ok 5 stAB "s1" "   " "hello" []).2 "s1" = some d2 ∧
       d2.messages = recA.messages ++
         [{ id := recA.messages.length + 1
            role := pyLower (pyStrip "   ")
            content := pyStrip "hello"
            timestamp := 5
            metadata := [] }]) ∧
    pyLower (pyStrip "   ") = "" :=
  ⟨add_message_ignores_role_validation 5 stAB "s1" "   " "hello" [] recA (by decide)
      (by decide),
   by decide⟩

theorem get_session_none_of_lookup_none {st : Storage} {sid : String}
    (h : lookupFile st sid = none) : get_session st sid = none := by
  unfold get_session
  rw [h]

theorem delete_session_not_found {st : Storage} {sid : String}
    (h : lookupFile st sid = none) (ok : Bool) :
    delete_session ok st sid = (false, st) := by
  unfold delete_session
  rw [h]

theorem storeInv_removeFile {st : Storage} (sid : String) (h : StoreInv st) :
    StoreInv (removeFile st sid) :=
  fun e he => h e (mem_removeFile he)

theorem storeInv_setFile {st : Storage} {sid : String} {d : SessionData}
    (h : StoreInv st) (hd : GoodRecord d) :
    StoreInv (setFile st sid (FileContent.valid d)) := by
  intro e he
  rcases mem_setFile he with h1 | h2
  · exact h e h1
  · rw [h2]
    exact hd

theorem storeInv_setFile_corrupt {st : Storage} {sid : String} (h : StoreInv st) :
    StoreInv (setFile st sid FileContent.corrupt) := by
  intro e he
  rcases mem_setFile he with h1 | h2
  · exact h e h1
  · rw [h2]
    trivial

theorem storeInv_save (w : WriteOutcome) {st : Storage} {sid : String} {d : SessionData}
    (h : StoreInv st) (hd : GoodRecord d) :
    StoreInv (_save_session w st sid d) := by
  cases w with
  | ok => simpa [_save_session] using storeInv_setFile h hd
  | failBeforeOpen => simpa [_save_session] using h
  | failDuringDump => simpa [_save_session] using storeInv_setFile_corrupt h

theorem storeInv_delete (ok : Bool) {st : Storage} (sid : String) (h : StoreInv st) :
    StoreInv (delete_session ok st sid).2 := by
  unfold delete_session
  cases hl : lookupFile st sid with
  | none => exact h
  | some fc =>
      cases ok with
      | false => exact h
      | true => exact storeInv_removeFile sid h

theorem storeInv_cleanup_step (ok : Bool) (cutoff : Int) (acc : Nat × Storage)
    (sid : String) (h : StoreInv acc.2) :
    StoreInv (cleanup_step ok cutoff acc sid).2 := by
  unfold cleanup_step
  split
  · exact h
  · split
    · exact storeInv_delete ok sid h
    · exact h

theorem storeInv_cleanup_loop (ok : Bool) (cutoff : Int) (ns : List String) :
    ∀ acc : Nat × Storage, StoreInv acc.2 →
      StoreInv ((ns.foldl (cleanup_step ok cutoff) acc).2) := by
  induction ns with
  | nil => exact fun acc h => h
  | cons sid ns ih =>
      intro acc h
      rw [List.foldl_cons]
      exact ih _ (storeInv_cleanup_step ok cutoff acc sid h)

/-- Claim C3: the data-model invariants — `message_count` equals the length of
`messages`, and the message ids form the contiguous sequence `1, ..., n` in
insertion order (`GoodRecord`) — hold for every record in the namespace after
any store operation, provided they held before: `create_session` writes a good
record, `add_message` writes a good record whenever the loaded one is good, and
deletion and cleanup only remove records.  Since the store starts from an empty
namespace (trivially good), every successfully written record is good. -/
theorem store_invariants_preserved (w : WriteOutcome) (ok : Bool)
    (now days_old : Int) (st : Storage)
    (sid sid2 sid3 role content : String) (uid : Option String)
    (md md2 : List (String × String)) (h : StoreInv st) :
    StoreInv (create_session w now st sid uid md).2 ∧
    StoreInv (add_message w now st sid2 role content md2).2 ∧
    StoreInv (delete_session ok st sid3).2 ∧
    StoreInv (cleanup_old_sessions ok now st days_old).2 := by
  refine ⟨?_, ?_, storeInv_delete ok sid3 h, ?_⟩
  · exact storeInv_save w h ⟨rfl, rfl⟩
  · by_cases hc : pyStrip content = ""
    · unfold add_message
      rw [if_pos hc]
      exact h
    · cases hg : get_session st sid2 with
      | none =>
          unfold add_message
          rw [if_neg hc, hg]
          exact h
      | some d =>
          have hgood : GoodRecord d := by
            have hmem := lookupFile_mem (get_session_eq_some hg)
            exact h _ hmem
          rw [add_message_success_eq w now st sid2 role content md2 d hg hc]
          refine storeInv_save w h ⟨by simp, ?_⟩
          simp only [List.map_append, List.map_cons, List.map_nil,
            List.length_append, List.length_cons, List.length_nil, hgood.2]
          rw [List.range'_1_concat]
          simp [Nat.add_comm]
  · unfold cleanup_old_sessions
    exact storeInv_cleanup_loop ok _ _ (0, st) h

/-- Closing the hypotheses of the claim C3 theorem on concrete operations over
the two-session fixture. -/
theorem store_invariants_preserved_witness :
    StoreInv (create_session WriteOutcome.ok 6 stAB "s3" (some "u3") []).2 ∧
    StoreInv (add_message WriteOutcome.ok 6 stAB "s1" "user" "hi" []).2 ∧
    StoreInv (delete_session true stAB "s2").2 ∧
    StoreInv (cleanup_old_sessions true 6 stAB 0).2 :=
  store_invariants_preserved WriteOutcome.ok true 6 0 stAB "s3" "s1" "s2" "user"
    "hi" (some "u3") [] [] (by decide)

/-- Counterexample to claim C4 as stated: on the concrete storage `stAB`, with
valid content and a save whose `json.dump` raises after `open` has truncated
the unit, `add_message` still returns `True` — the exception inside
`_save_session` is caught and only logged, so the write failure is not surfaced
to the caller as a boolean failure. -/
theorem add_message_failed_save_returns_true :
    ¬ (add_message WriteOutcome.failDuringDump 5 stAB "s1" "user" "hello" []).1 =
      false := by
  decide

/-- Claim C4 (amended): no storage I/O failure propagates as an exception, and
`delete_session` surfaces a failed delete as `False` with the storage
unchanged; but a failed save inside `_save_session` is swallowed (logged only),
so `add_message` and `create_session` report success whatever the outcome of
the underlying write. -/
theorem io_failure_swallowed (w : WriteOutcome) (now : Int) (st : Storage)
    (sid role content : String) (uid : Option String)
    (md md2 : List (String × String)) (d : SessionData)
    (hfound : get_session st sid = some d) (hc : pyStrip content ≠ "") :
    (add_message w now st sid role content md).1 = true ∧
    (create_session w now st sid uid md2).1 = sid ∧
    delete_session false st sid = (false, st) := by
  refine ⟨?_, rfl, ?_⟩
  · rw [add_message_success_eq w now st sid role content md d hfound hc]
  · unfold delete_session
    rw [get_session_eq_some hfound]
    rfl

/-- Closing the hypotheses of the amended claim C4 theorem on a concrete
session whose save fails during the dump. -/
theorem io_failure_swallowed_witness :
    (add_message WriteOutcome.failDuringDump 5 stAB "s1" "user" "hello" []).1 =
      true ∧
    (create_session WriteOutcome.failDuringDump 5 stAB "s1" (some "u9") []).1 =
      "s1" ∧
    delete_session false stAB "s1" = (false, stAB) :=
  io_failure_swallowed WriteOutcome.failDuringDump 5 stAB "s1" "user" "hello"
    (some "u9") [] [] recA (by decide) (by decide)

/-- Claim C8: deleting an existing session returns `True` and removes its
persisted unit; afterwards `get_session` on the identifier returns not-found
and every subsequent `delete_session` on it returns `False` and changes
nothing. -/
theorem delete_session_spec (st : Storage) (sid : String)
    (hex : (lookupFile st sid).isSome = true) :
    (delete_session true st sid).1 = true ∧
    lookupFile (delete_session true st sid).2 sid = none ∧
    get_session (delete_session true st sid).2 sid = none ∧
    ∀ ok, delete_session ok (delete_session true st sid).2 sid =
      (false, (delete_session true st sid).2) := by
  obtain ⟨fc, hfc⟩ := Option.isSome_iff_exists.mp hex
  have hdel : delete_session true st sid = (true, removeFile st sid) := by
    unfold delete_session
    rw [hfc]
    rfl
  rw [hdel]
  exact ⟨rfl, lookupFile_removeFile_self st sid,
    get_session_none_of_lookup_none (lookupFile_removeFile_self st sid),
    fun ok => delete_session_not_found (lookupFile_removeFile_self st sid) ok⟩

/-- Closing the hypotheses of the claim C8 theorem on the concrete two-session
storage. -/
theorem delete_session_spec_witness :
    (delete_session true stAB "s1").1 = true ∧
    get_session (delete_session true stAB "s1").2 "s1" = none ∧
    delete_session true (delete_session true stAB "s1").2 "s1" =
      (false, (delete_session true stAB "s1").2) := by
  have h := delete_session_spec stAB "s1" (by decide)
  exact ⟨h.1, h.2.2.1, h.2.2.2 true⟩

theorem matchingSummaries_none (st : Storage) :
    matchingSummaries st none = (storedRecords st).map summarize := by
  unfold matchingSummaries storedRecords
  rw [List.map_filterMap]
  congr 1
  funext e
  obtain ⟨sid, fc⟩ := e
  cases fc <;> simp

/-- Claim C5: `list_sessions` returns exactly the summaries — carrying exactly
`session_id`, `user_id`, `created_at`, `last_updated` and `message_count`, the
fields of `SessionSummary` — of the stored sessions whose `user_id` equals the
filter (exact match), sorted by `last_updated` descending (stably), and with a
`None` filter the summaries of all stored sessions regardless of owner. -/
theorem list_sessions_spec (st : Storage) (uid : Option String) :
    (list_sessions st uid).Perm (matchingSummaries st uid) ∧
    List.Sorted moreRecent (list_sessions st uid) ∧
    (list_sessions st none).Perm ((storedRecords st).map summarize) := by
  refine ⟨List.perm_insertionSort moreRecent _,
    List.sorted_insertionSort moreRecent _, ?_⟩
  rw [← matchingSummaries_none]
  exact List.perm_insertionSort moreRecent _

/-- Claim C7: `get_stats` returns `total_sessions` equal to the number of
stored sessions, `total_messages` equal to the sum of their stored
`message_count` fields, and an average equal to `total_messages /
total_sessions` when at least one session exists and exactly `0` when none
exist; the division is guarded by the emptiness test, so no division by zero is
ever performed. -/
theorem get_stats_spec (dir : String) (st : Storage) :
    (get_stats dir st).total_sessions = (storedRecords st).length ∧
    (get_stats dir st).total_messages =
      ((storedRecords st).map SessionData.message_count).sum ∧
    (get_stats dir st).average_messages_per_session =
      (if (storedRecords st).length = 0 then 0
       else (((storedRecords st).map SessionData.message_count).sum : Rat) /
         ((storedRecords st).length : Rat)) := by
  have hperm : (list_sessions st none).Perm ((storedRecords st).map summarize) := by
    rw [← matchingSummaries_none]
    exact List.perm_insertionSort moreRecent _
  have hlen : (list_sessions st none).length = (storedRecords st).length := by
    rw [hperm.length_eq, List.length_map]
  have hsum : ((list_sessions st none).map SessionSummary.message_count).sum =
      ((storedRecords st).map SessionData.message_count).sum := by
    rw [(hperm.map SessionSummary.message_count).sum_eq, List.map_map]
    rfl
  simp only [get_stats]
  refine ⟨hlen, hsum, ?_⟩
  by_cases he : list_sessions st none = []
  · have h0 : (storedRecords st).length = 0 := by
      rw [← hlen, he]
      rfl
    rw [if_pos he, if_pos h0]
  · have h0 : ¬ (storedRecords st).length = 0 := by
      rw [← hlen]
      exact fun h => he (List.length_eq_zero.mp h)
    rw [if_neg he, if_neg h0, hsum, hlen]

theorem add_messages_messages (now : Int) (sid : String) :
    ∀ (pairs : List (String × String)) (st : Storage) (d : SessionData),
      get_session st sid = some d →
      (∀ p ∈ pairs, pyStrip p.2 ≠ "") →
      ∃ d2, get_session (add_messages now sid pairs st) sid = some d2 ∧
        d2.messages.map (fun m => (m.role, m.content)) =
          d.messages.map (fun m => (m.role, m.content)) ++
            pairs.map (fun p => (pyLower (pyStrip p.1), pyStrip p.2)) := by
  intro pairs
  induction pairs with
  | nil =>
      intro st d hfound hall
      exact ⟨d, by simpa [add_messages] using hfound, by simp⟩
  | cons p rest ih =>
      intro st d hfound hall
      have hc : pyStrip p.2 ≠ "" := hall p (List.mem_cons_self p rest)
      have hfound2 : get_session (add_message WriteOutcome.ok now st sid p.1 p.2 []).2 sid = some
          { d with
            messages := d.messages ++
              [{ id := d.messages.length + 1
                 role := pyLower (pyStrip p.1)
                 content := pyStrip p.2
                 timestamp := now
                 metadata := [] }]
            message_count := d.messages.length + 1
            last_updated := now } := by
        rw [add_message_success_eq WriteOutcome.ok now st sid p.1 p.2 [] d hfound hc]
        exact get_session_setFile_valid st sid _
      obtain ⟨d2, hg2, hm2⟩ := ih (add_message WriteOutcome.ok now st sid p.1 p.2 []).2 _ hfound2
        (fun q hq => hall q (List.mem_cons_of_mem p hq))
      refine ⟨d2, ?_, ?_⟩
      · rw [add_messages, List.foldl_cons]
        exact hg2
      · rw [hm2]
        simp

/-- Claim C9: the write-then-read round trip.  A store instance holds no state
besides the storage directory name, so reading through a fresh instance over
the same namespace is `get_session` against the same storage.  After creating a
session and appending `N` messages with known `(role, content)` pairs (every
content non-empty after stripping, every save completing), `get_session` yields
a record containing the same `N` messages in the same order, whose role and
content values are exactly the normalized values the store persisted for each
input pair. -/
theorem round_trip_spec (t1 t2 : Int) (st : Storage) (sid : String)
    (uid : Option String) (md : List (String × String))
    (pairs : List (String × String))
    (hall : ∀ p ∈ pairs, pyStrip p.2 ≠ "") :
    ∃ d, get_session
        (add_messages t2 sid pairs (create_session WriteOutcome.ok t1 st sid uid md).2) sid =
        some d ∧
      d.messages.length = pairs.length ∧
      d.messages.map (fun m => (m.role, m.content)) =
        pairs.map (fun p => (pyLower (pyStrip p.1), pyStrip p.2)) := by
  have hfound : get_session (create_session WriteOutcome.ok t1 st sid uid md).2 sid = some
      { session_id := sid
        user_id := uid
        created_at := t1
        last_updated := t1
        message_count := 0
        metadata := md
        messages := [] } := get_session_setFile_valid st sid _
  obtain ⟨d, hg, hm⟩ := add_messages_messages t2 sid pairs _ _ hfound hall
  simp only [List.map_nil, List.nil_append] at hm
  refine ⟨d, hg, ?_, hm⟩
  have hlen := congrArg List.length hm
  simpa using hlen

/-- Closing the hypotheses of the claim C9 theorem on a concrete two-message
conversation. -/
theorem round_trip_spec_witness :
    ∃ d, get_session
        (add_messages 7 "s3" [("user", "Hello"), ("assistant", " Hi there! ")]
          (create_session WriteOutcome.ok 6 stAB "s3" (some "u1") []).2) "s3" =
        some d ∧
      d.messages.length = 2 ∧
      d.messages.map (fun m => (m.role, m.content)) =
        [("user", "Hello"), ("assistant", "Hi there!")] :=
  round_trip_spec 6 7 stAB "s3" (some "u1") []
    [("user", "Hello"), ("assistant", " Hi there! ")] (by decide)

theorem cleanup_loop_spec (cutoff : Int) :
    ∀ (todo pre : Storage) (n : Nat),
      ((pre ++ todo).map Prod.fst).Nodup →
      (todo.map Prod.fst).foldl (cleanup_step true cutoff) (n, pre ++ todo) =
        (n + todo.countP (isOld cutoff),
         pre ++ todo.filter (fun e => !(isOld cutoff e))) := by
  intro todo
  induction todo with
  | nil =>
      intro pre n hnd
      simp
  | cons e todo ih =>
      intro pre n hnd
      obtain ⟨sid, fc⟩ := e
      have hnd2 : (pre.map Prod.fst ++ sid :: todo.map Prod.fst).Nodup := by
        simpa using hnd
      have hnotpre : sid ∉ pre.map Prod.fst := fun hmem =>
        (List.nodup_append.mp hnd2).2.2 hmem (List.mem_cons_self _ _)
      have hnottodo : sid ∉ todo.map Prod.fst :=
        (List.nodup_cons.mp (List.nodup_append.mp hnd2).2.1).1
      have hlpre : lookupFile pre sid = none := (lookupFile_none_iff pre sid).mpr hnotpre
      have hlook : lookupFile (pre ++ (sid, fc) :: todo) sid = some fc := by
        rw [lookupFile_append_left_none _ hlpre, lookupFile, if_pos rfl]
      have hndmid : (((pre ++ [(sid, fc)]) ++ todo).map Prod.fst).Nodup := by
        simpa using hnd
      have hmid : (pre ++ [(sid, fc)]) ++ todo = pre ++ (sid, fc) :: todo := by
        simp
      cases fc with
      | corrupt =>
          have hgs : get_session (pre ++ (sid, FileContent.corrupt) :: todo) sid = none := by
            unfold get_session
            rw [hlook]
          have hstep :
              cleanup_step true cutoff (n, pre ++ (sid, FileContent.corrupt) :: todo) sid =
                (n, pre ++ (sid, FileContent.corrupt) :: todo) := by
            simp [cleanup_step, hgs]
          rw [List.map_cons, List.foldl_cons, hstep, ← hmid, ih (pre ++ [(sid, FileContent.corrupt)]) n hndmid]
          simp [isOld, List.countP_cons, List.filter_cons]
      | valid d =>
          have hgs : get_session (pre ++ (sid, FileContent.valid d) :: todo) sid = some d := by
            unfold get_session
            rw [hlook]
          by_cases hold : d.created_at < cutoff
          · have hdel :
                delete_session true (pre ++ (sid, FileContent.valid d) :: todo) sid =
                  (true, removeFile (pre ++ (sid, FileContent.valid d) :: todo) sid) := by
              unfold delete_session
              rw [hlook]
              rfl
            have hrm : removeFile (pre ++ (sid, FileContent.valid d) :: todo) sid =
                pre ++ todo := by
              rw [removeFile_append, removeFile_of_not_mem hnotpre, removeFile,
                if_pos rfl, removeFile_of_not_mem hnottodo]
            have hstep :
                cleanup_step true cutoff (n, pre ++ (sid, FileContent.valid d) :: todo) sid =
                  (n + 1, pre ++ todo) := by
              simp [cleanup_step, hgs, hold, hdel, hrm]
            have hndrest : ((pre ++ todo).map Prod.fst).Nodup := by
              have hsub : List.Sublist (pre.map Prod.fst ++ todo.map Prod.fst)
                  (pre.map Prod.fst ++ sid :: todo.map Prod.fst) :=
                List.Sublist.append_left (List.sublist_cons_self sid _) _
              have hnd3 := List.Nodup.sublist hsub hnd2
              simpa using hnd3
            rw [List.map_cons, List.foldl_cons, hstep, ih pre (n + 1) hndrest]
            have hone : isOld cutoff (sid, FileContent.valid d) = true := by
              simp [isOld, hold]
            rw [List.countP_cons, List.filter_cons]
            simp only [hone, if_true, Bool.not_true, Bool.false_eq_true, if_false]
            refine congrArg₂ Prod.mk ?_ rfl
            omega
          · have hstep :
                cleanup_step true cutoff (n, pre ++ (sid, FileContent.valid d) :: todo) sid =
                  (n, pre ++ (sid, FileContent.valid d) :: todo) := by
              simp [cleanup_step, hgs, hold]
            have hzero : isOld cutoff (sid, FileContent.valid d) = false := by
              simp [isOld, hold]
            rw [List.map_cons, List.foldl_cons, hstep, ← hmid, ih (pre ++ [(sid, FileContent.valid d)]) n hndmid]
            rw [List.countP_cons, List.filter_cons]
            simp [hzero]

/-- Claim C6: `cleanup_old_sessions` deletes exactly the stored records whose
`created_at` is older than `now` minus `days_old` days (age computed from
`created_at` only) and returns the count of records actually removed.  With
`days_old = 0` the cutoff is `now` itself, so on a namespace of sessions
created strictly before the call every record is removed and the prior total
session count is returned (concrete instance in the witness). -/
theorem cleanup_old_sessions_spec (now days_old : Int) (st : Storage)
    (hnd : (st.map Prod.fst).Nodup) :
    cleanup_old_sessions true now st days_old =
      (st.countP (isOld (now - days_old * secondsPerDay)),
       st.filter (fun e => !(isOld (now - days_old * secondsPerDay) e))) := by
  have h := cleanup_loop_spec (now - days_old * secondsPerDay) st [] 0 (by simpa using hnd)
  unfold cleanup_old_sessions
  simpa using h

/-- Closing the hypotheses of the claim C6 theorem: cleanup with `days_old = 0`
on the two-session fixture (both created before the call) removes both records
and returns the prior total session count, `2`. -/
theorem cleanup_old_sessions_spec_witness :
    cleanup_old_sessions true 5 stAB 0 = (2, []) := by
  rw [cleanup_old_sessions_spec 5 0 stAB (by decide)]
  decide

end SimpleSessionStore
